import Mathlib

/-!
Shallow embedding of `sdriving/tsim/vehicle.py` (`_BatchedVehicle` and the
module-level `safety_circle_overlap`).  Tensors are modelled as (nested)
lists over `ℝ`; a fleet is a record of per-vehicle lists.  The helper
functions imported from `sdriving.tsim.utils` (`angle_normalize`,
`transform_2d_coordinates`, `check_intersection_lines`,
`circle_area_overlap`) are not part of the sources and are modelled from
the specification, as their doc comments state.
-/

namespace SDriving

/-- A 2D point, the innermost axis of the N x ... x 2 tensors. -/
abbrev Point := ℝ × ℝ

/-- Modelled from the spec: `angle_normalize` from `sdriving.tsim.utils`
(not in the sources) normalizes an angle to the interval (−π, π],
keeping it congruent modulo 2π. -/
noncomputable def angle_normalize (θ : ℝ) : ℝ :=
  θ - 2 * Real.pi * (⌈(θ - Real.pi) / (2 * Real.pi)⌉ : ℤ)

/-- Application of the standard 2D rotation matrix R(θ) to a point. -/
noncomputable def rotate2d (θ : ℝ) (p : Point) : Point :=
  (Real.cos θ * p.1 - Real.sin θ * p.2, Real.sin θ * p.1 + Real.cos θ * p.2)

/-- World corners of one vehicle: each local corner is rotated by the
vehicle's orientation and translated by its position. -/
noncomputable def cornersVeh (base : List Point) (θ : ℝ) (pos : Point) : List Point :=
  base.map fun c => rotate2d θ c + pos

/-- Modelled from the spec: `transform_2d_coordinates` from
`sdriving.tsim.utils` (not in the sources): world = R(θ)·local + position
for each of the 4 corners, batched over the fleet. -/
noncomputable def transform_2d_coordinates (base : List (List Point))
    (θs : List ℝ) (pos : List Point) : List (List Point) :=
  (base.zip (θs.zip pos)).map fun t => cornersVeh t.1 t.2.1 t.2.2

/-- Orientation sign of the triple (p, q, r): the cross product of q − p
and r − p. -/
noncomputable def direction (p q r : Point) : ℝ :=
  (q.1 - p.1) * (r.2 - p.2) - (q.2 - p.2) * (r.1 - p.1)

/-- Modelled from the spec: the per-pair test of `check_intersection_lines`
from `sdriving.tsim.utils` (not in the sources): segments a1-a2 and b1-b2
intersect iff the endpoints of each strictly straddle the line of the other
(opposite orientation signs); touches and collinear overlaps do not count. -/
noncomputable def check_intersection_lines (a1 a2 b1 b2 : Point) : Prop :=
  direction a1 a2 b1 * direction a1 a2 b2 < 0 ∧
    direction b1 b2 a1 * direction b1 b2 a2 < 0

/-- Modelled from the spec: `circle_area_overlap` from
`sdriving.tsim.utils` (not in the sources).  Given two circles it returns
the area of their intersection: 0 when they are disjoint or externally
tangent, the full smaller disc when one contains the other, and the
two-circular-segment (lens) formula otherwise, with the inverse-cosine
arguments clamped to [−1, 1]. -/
noncomputable def circle_area_overlap (c1 c2 : Point) (r1 r2 : ℝ) : ℝ :=
  let d := Real.sqrt ((c1.1 - c2.1) ^ 2 + (c1.2 - c2.2) ^ 2)
  if r1 + r2 ≤ d then 0
  else if d ≤ |r1 - r2| then Real.pi * (min r1 r2) ^ 2
  else
    let α := Real.arccos (max (-1) (min 1 ((d ^ 2 + r1 ^ 2 - r2 ^ 2) / (2 * d * r1))))
    let β := Real.arccos (max (-1) (min 1 ((d ^ 2 + r2 ^ 2 - r1 ^ 2) / (2 * d * r2))))
    r1 ^ 2 * (α - Real.sin α * Real.cos α) + r2 ^ 2 * (β - Real.sin β * Real.cos β)

/-- The `mul_factor` sign template of `__init__`:
`[[1, 1], [1, -1], [-1, -1], [-1, 1]]`. -/
noncomputable def mul_factor : List Point := [(1, 1), (1, -1), (-1, -1), (-1, 1)]

/-- Local corners of one vehicle:
`mul_factor * dimensions.unsqueeze(1) / 2` for one row of `dimensions`. -/
noncomputable def baseOf (d : Point) : List Point :=
  mul_factor.map fun m => (m.1 * d.1 / 2, m.2 * d.2 / 2)

/-- Safety-circle radius of one vehicle:
`1.3 * sqrt(((dimensions / 2) ** 2).sum(1))` for one row of `dimensions`. -/
noncomputable def safetyOf (d : Point) : ℝ :=
  (13 / 10) * Real.sqrt ((d.1 / 2) ^ 2 + (d.2 / 2) ^ 2)

/-- The state of a `_BatchedVehicle` fleet: per-vehicle lists mirroring the
tensor attributes set by `__init__`.  `diag_bool_buffer` is a function of
`nbatch` and is defined separately. -/
structure Fleet where
  name : List String
  position : List Point
  orientation : List ℝ
  destination : List Point
  dest_orientation : List ℝ
  dimensions : List Point
  nbatch : ℕ
  speed : List ℝ
  safety_circle : List ℝ
  area : List ℝ
  base_coordinates : List (List Point)
  cached_coordinates : Bool
  coordinates : List (List Point)
  max_lidar_range : ℝ
  min_lidar_range : ℝ
  vision_range : ℝ

/-- The mask `~torch.diag(torch.ones(nbatch * 4)).bool()` built by
`__init__`: a (4N)×(4N) boolean matrix that is false exactly on the
diagonal, so entry (i, j) holds iff i ≠ j. -/
def diag_bool_buffer (i j : ℕ) : Prop := i ≠ j

/-- `_BatchedVehicle.__init__`: stores the batched arguments (normalizing
the two orientation tensors), derives `nbatch`, `safety_circle`, `area` and
`base_coordinates`, and eagerly computes the world coordinates (the cache
flag ends up true).  The source performs no validation of any argument. -/
noncomputable def vehicleInit (position : List Point) (orientation : List ℝ)
    (destination : List Point) (dest_orientation : List ℝ)
    (dimensions : List Point) (initial_speed : List ℝ) (name : List String)
    (min_lidar_range max_lidar_range vision_range : ℝ) : Fleet :=
  { name := name
    position := position
    orientation := orientation.map angle_normalize
    destination := destination
    dest_orientation := dest_orientation.map angle_normalize
    dimensions := dimensions
    nbatch := position.length
    speed := initial_speed
    safety_circle := dimensions.map safetyOf
    area := (dimensions.map safetyOf).map fun r => Real.pi * r ^ 2
    base_coordinates := dimensions.map baseOf
    cached_coordinates := true
    coordinates := transform_2d_coordinates (dimensions.map baseOf)
      (orientation.map angle_normalize) position
    max_lidar_range := max_lidar_range
    min_lidar_range := min_lidar_range
    vision_range := vision_range }

/-- `_get_coordinates`: sets the cache flag to true and returns the freshly
transformed coordinates.  Note that the source does not write the result
into `self.coordinates`. -/
noncomputable def get_coordinates_inner (f : Fleet) : List (List Point) × Fleet :=
  (transform_2d_coordinates f.base_coordinates f.orientation f.position,
    { f with cached_coordinates := true })

/-- `get_coordinates`: returns the cached `self.coordinates` when the cache
flag is set, else falls back to `_get_coordinates`. -/
noncomputable def get_coordinates (f : Fleet) : List (List Point) × Fleet :=
  if f.cached_coordinates then (f.coordinates, f) else get_coordinates_inner f

/-- `get_edges`: `pt1 = coordinates` (as an N×4×2 nested list) and
`pt2 = torch.cat([coordinates[:, :, 1:], coordinates[:, :, 0:1]], dim=1)`:
the y-column slice (N×4×1) concatenated with the x-column slice (N×4×1)
along dimension 1, an N×8×1 nested list. -/
noncomputable def get_edges (f : Fleet) :
    (List (List (List ℝ)) × List (List (List ℝ))) × Fleet :=
  let r := get_coordinates f
  ((r.1.map fun v => v.map fun p => [p.1, p.2],
    r.1.map fun v => (v.map fun p => [p.2]) ++ (v.map fun p => [p.1])), r.2)

/-- `update_state`: overwrites `position` with columns 0–1, `speed` with
column 2 and `orientation` with column 3 of the state tensor, and clears
the cache flag.  No other attribute is touched and nothing is validated. -/
noncomputable def update_state (f : Fleet) (state : List (List ℝ)) : Fleet :=
  { f with
    position := state.map fun r => (r.getD 0 0, r.getD 1 0)
    speed := state.map fun r => r.getD 2 0
    orientation := state.map fun r => r.getD 3 0
    cached_coordinates := false }

/-- Reading a flattened N×k×2 (or N×2k×1) real tensor as rows of a
(Nk)×2 view, as `p.view(-1, 2)` does. -/
def chunkPairs : List ℝ → List Point
  | x :: y :: rest => (x, y) :: chunkPairs rest
  | _ => []

/-- `collision_check`, per vehicle index b: the edges from `get_edges` are
flattened into 4N segments via `.view(-1, 2)`; the all-pairs intersection
matrix is masked by `diag_bool_buffer` and reduced by
`.view(nbatch, 4, -1).any(1).any(1)`, so vehicle b's flag holds iff some
row 4b+k (k < 4) has an unmasked intersecting column j. -/
noncomputable def collision_check (f : Fleet) (b : ℕ) : Prop :=
  let e := get_edges f
  let p1 := chunkPairs e.1.1.flatten.flatten
  let p2 := chunkPairs e.1.2.flatten.flatten
  ∃ k < 4, ∃ j < 4 * f.nbatch, diag_bool_buffer (4 * b + k) j ∧
    check_intersection_lines (p1.getD (4 * b + k) (0, 0)) (p2.getD (4 * b + k) (0, 0))
      (p1.getD j (0, 0)) (p2.getD j (0, 0))

/-- Concatenation of m copies of a list, as `tensor.repeat(m, 1)` (and,
after `unsqueeze(0).repeat(m, 1, 1).view(-1, ...)`, also that pattern). -/
def tile (m : ℕ) (l : List α) : List α := (List.replicate m l).flatten

/-- The module-level `safety_circle_overlap(obj1, obj2)`:
`center1 = obj1.position.repeat(obj2.nbatch, 1)`,
`center2 = obj2.position.unsqueeze(0).repeat(obj1.nbatch, 1, 1).view(-1, 2)`
(likewise for the radii), the flat list of pairwise
`circle_area_overlap` values, reshaped by `.view(obj1.nbatch, obj2.nbatch)`. -/
noncomputable def safety_circle_overlap (o1 o2 : Fleet) : List (List ℝ) :=
  let center1 := tile o2.nbatch o1.position
  let center2 := tile o1.nbatch o2.position
  let radius1 := tile o2.nbatch o1.safety_circle
  let radius2 := tile o1.nbatch o2.safety_circle
  let flat := List.zipWith (fun c r => circle_area_overlap c.1 c.2 r.1 r.2)
    (center1.zip center2) (radius1.zip radius2)
  (List.range o1.nbatch).map fun i =>
    (List.range o2.nbatch).map fun j => flat.getD (i * o2.nbatch + j) 0

/-- Corner i of vehicle b as returned by `get_coordinates`. -/
noncomputable def vehicle_corner (f : Fleet) (b i : ℕ) : Point :=
  ((get_coordinates f).1.getD b []).getD i (0, 0)

/-- Stated from the claim's words (for comparison with `collision_check`):
vehicle b collides iff at least one of its 4 oriented boundary edges
(corner i to corner (i+1) mod 4) intersects at least one edge of a
different vehicle of the same fleet. -/
noncomputable def collision_check_claim (f : Fleet) (b : ℕ) : Prop :=
  ∃ b' < f.nbatch, b' ≠ b ∧ ∃ i < 4, ∃ j < 4,
    check_intersection_lines (vehicle_corner f b i) (vehicle_corner f b ((i + 1) % 4))
      (vehicle_corner f b' j) (vehicle_corner f b' ((j + 1) % 4))

/-- `optimal_heading_to_point` specialised to a single-vehicle fleet
(nbatch = 1), tracing the source's tensor shapes exactly: `vec` is 1×2 and
`torch.norm(vec, dim=1)` is a length-1 vector, so both components are
divided by the norm (plus 1e-7); `torch.cat([cos θ, sin θ])` concatenates
along dimension 0 giving a 2×1 tensor; multiplying the 1×2 `vec` by the
2×1 `cur_vec` broadcasts to 2×2, and `.sum(1, keepdim=True)` yields the
2×1 column [(vx+vy)·cos θ, (vx+vy)·sin θ], which is clamped to
[−1+1e-5, 1−1e-5], passed through acos and normalized elementwise. -/
noncomputable def optimal_heading_to_point1 (f : Fleet) (point : Point) : List ℝ :=
  let p := f.position.getD 0 (0, 0)
  let θ := f.orientation.getD 0 0
  let vx := (point.1 - p.1) / (Real.sqrt ((point.1 - p.1) ^ 2 + (point.2 - p.2) ^ 2) + 1 / 10000000)
  let vy := (point.2 - p.2) / (Real.sqrt ((point.1 - p.1) ^ 2 + (point.2 - p.2) ^ 2) + 1 / 10000000)
  [angle_normalize (Real.arccos (max (-1 + 1 / 100000) (min (1 - 1 / 100000) ((vx + vy) * Real.cos θ)))),
   angle_normalize (Real.arccos (max (-1 + 1 / 100000) (min (1 - 1 / 100000) ((vx + vy) * Real.sin θ))))]

/-! Concrete test fixtures: small fleets built by `vehicleInit`. -/

/-- One vehicle at the origin, orientation 0, dimensions 4 × 2. -/
noncomputable def fleetA : Fleet :=
  vehicleInit [(0, 0)] [0] [(1, 1)] [0] [(4, 2)] [0] ["car"] (5 / 2) 50 50

/-- Two 4 × 2 vehicles at (0, 0) and (20, 0), both with orientation 0. -/
noncomputable def fleetB : Fleet :=
  vehicleInit [(0, 0), (20, 0)] [0, 0] [(0, 0), (0, 0)] [0, 0]
    [(4, 2), (4, 2)] [0, 0] ["car", "car"] (5 / 2) 50 50

/-- Two 4 × 2 vehicles at (0, 0) and (100, 0), both with orientation 0. -/
noncomputable def fleetC : Fleet :=
  vehicleInit [(0, 0), (100, 0)] [0, 0] [(0, 0), (0, 0)] [0, 0]
    [(4, 2), (4, 2)] [0, 0] ["car", "car"] (5 / 2) 50 50

/-! Basic lemmas about the modelled helpers. -/

lemma angle_normalize_eq_self (θ : ℝ) (h1 : -Real.pi < θ) (h2 : θ ≤ Real.pi) :
    angle_normalize θ = θ := by
  have hπ := Real.pi_pos
  have hc : ⌈(θ - Real.pi) / (2 * Real.pi)⌉ = 0 := by
    rw [Int.ceil_eq_zero_iff, Set.mem_Ioc]
    constructor
    · rw [lt_div_iff₀ (by linarith : (0:ℝ) < 2 * Real.pi)]
      linarith
    · rw [div_le_iff₀ (by linarith : (0:ℝ) < 2 * Real.pi)]
      linarith
  rw [angle_normalize, hc]
  push_cast
  ring

lemma angle_normalize_zero : angle_normalize 0 = 0 :=
  angle_normalize_eq_self 0 (by linarith [Real.pi_pos]) (le_of_lt Real.pi_pos)

lemma angle_normalize_mem (θ : ℝ) :
    angle_normalize θ ∈ Set.Ioc (-Real.pi) Real.pi := by
  have hπ := Real.pi_pos
  have h2π : (0:ℝ) < 2 * Real.pi := by linarith
  have hx : 2 * Real.pi * ((θ - Real.pi) / (2 * Real.pi)) = θ - Real.pi := by
    field_simp
  have h1 := Int.le_ceil ((θ - Real.pi) / (2 * Real.pi))
  have h2 := Int.ceil_lt_add_one ((θ - Real.pi) / (2 * Real.pi))
  have h1m := mul_le_mul_of_nonneg_left h1 (le_of_lt h2π)
  have h2m := mul_lt_mul_of_pos_left h2 h2π
  rw [hx] at h1m
  rw [mul_add, hx, mul_one] at h2m
  rw [Set.mem_Ioc, angle_normalize]
  constructor <;> linarith

lemma coordsA : fleetA.coordinates = [[(2, 1), (2, -1), (-2, -1), (-2, 1)]] := by
  simp only [fleetA, vehicleInit, transform_2d_coordinates, cornersVeh, baseOf, mul_factor,
    rotate2d, angle_normalize_zero, List.map_cons, List.map_nil, List.zip_cons_cons,
    List.zip_nil_right, Real.cos_zero, Real.sin_zero, Prod.mk_add_mk]
  norm_num

lemma coordsB : fleetB.coordinates =
    [[(2, 1), (2, -1), (-2, -1), (-2, 1)], [(22, 1), (22, -1), (18, -1), (18, 1)]] := by
  simp only [fleetB, vehicleInit, transform_2d_coordinates, cornersVeh, baseOf, mul_factor,
    rotate2d, angle_normalize_zero, List.map_cons, List.map_nil, List.zip_cons_cons,
    List.zip_nil_right, Real.cos_zero, Real.sin_zero, Prod.mk_add_mk]
  norm_num

lemma fleetA_cached : fleetA.cached_coordinates = true := by
  simp [fleetA, vehicleInit]

lemma fleetA_orientation : fleetA.orientation = [0] := by
  simp [fleetA, vehicleInit, angle_normalize_zero]

lemma fleetA_position : fleetA.position = [(0, 0)] := by
  simp [fleetA, vehicleInit]

lemma fleetA_base : fleetA.base_coordinates = [[(2, 1), (2, -1), (-2, -1), (-2, 1)]] := by
  simp only [fleetA, vehicleInit, baseOf, mul_factor, List.map_cons, List.map_nil]
  norm_num

lemma get_coordinatesA :
    get_coordinates fleetA = ([[(2, 1), (2, -1), (-2, -1), (-2, 1)]], fleetA) := by
  rw [get_coordinates, fleetA_cached]
  simp [coordsA]

lemma getD_take_of_lt {α : Type} (r : List α) (d : α) (i n : ℕ) (h : i < n) :
    (r.take n).getD i d = r.getD i d := by
  simp [List.getD_eq_getElem?_getD, List.getElem?_take, h]

/-! Theorems settling the claims. -/

/-- C9: for every fleet and state tensor, `update_state` overwrites exactly
position (columns 0–1), speed (column 2) and orientation (column 3), clears
the cache flag, and leaves destination, dest_orientation, dimensions, base
corners, safety radius, safety area, names and the lidar/vision range
scalars unchanged. -/
theorem update_state_frame_effect (f : Fleet) (s : List (List ℝ)) :
    (update_state f s).position = (s.map fun r => (r.getD 0 0, r.getD 1 0)) ∧
    (update_state f s).speed = (s.map fun r => r.getD 2 0) ∧
    (update_state f s).orientation = (s.map fun r => r.getD 3 0) ∧
    (update_state f s).cached_coordinates = false ∧
    (update_state f s).destination = f.destination ∧
    (update_state f s).dest_orientation = f.dest_orientation ∧
    (update_state f s).dimensions = f.dimensions ∧
    (update_state f s).base_coordinates = f.base_coordinates ∧
    (update_state f s).safety_circle = f.safety_circle ∧
    (update_state f s).area = f.area ∧
    (update_state f s).name = f.name ∧
    (update_state f s).min_lidar_range = f.min_lidar_range ∧
    (update_state f s).max_lidar_range = f.max_lidar_range ∧
    (update_state f s).vision_range = f.vision_range := by
  simp [update_state]

/-- C10: `update_state` validates nothing: for any state whose rows have at
least 4 entries the result only depends on the first 4 columns of each row
(extra columns are ignored), and the number of rows is not checked against
the fleet's batch size (the resulting position list simply has one entry
per row of the argument). -/
theorem update_state_no_validation (f : Fleet) (s : List (List ℝ))
    (_h : ∀ r ∈ s, 4 ≤ r.length) :
    update_state f s = update_state f (s.map fun r => r.take 4) ∧
    (update_state f s).position.length = s.length := by
  constructor
  · cases f with
    | mk nm pos ors dst dors dims nb sp sc ar bc cc co ml mi vi =>
      simp only [update_state, List.map_map, Fleet.mk.injEq, and_true, true_and]
      refine ⟨?_, ?_, ?_⟩ <;>
        refine (List.map_congr_left fun r hr => ?_).symm <;>
          simp [getD_take_of_lt r 0]
  · simp [update_state]

/-- C10 witness: a fleet of batch size 1 accepts a 3-row, 5-column state. -/
theorem update_state_no_validation_witness :
    (∀ r ∈ [[(1:ℝ), 2, 3, 4, 5], [6, 7, 8, 9, 10], [0, 0, 0, 0, 0]], 4 ≤ r.length) ∧
    (update_state fleetA [[(1:ℝ), 2, 3, 4, 5], [6, 7, 8, 9, 10], [0, 0, 0, 0, 0]]
        = update_state fleetA
          ([[(1:ℝ), 2, 3, 4, 5], [6, 7, 8, 9, 10], [0, 0, 0, 0, 0]].map fun r => r.take 4) ∧
      (update_state fleetA
        [[(1:ℝ), 2, 3, 4, 5], [6, 7, 8, 9, 10], [0, 0, 0, 0, 0]]).position.length
        = [[(1:ℝ), 2, 3, 4, 5], [6, 7, 8, 9, 10], [0, 0, 0, 0, 0]].length) :=
  ⟨by simp, update_state_no_validation fleetA _ (by simp)⟩

/-- C8 (amended): `__init__` performs no validation at all: for any
arguments whatsoever (agreeing leading dimensions or not, positive
dimensions or not) construction succeeds and stores the arguments as
given; no ShapeMismatch check exists. -/
theorem vehicleInit_no_validation (position : List Point) (orientation : List ℝ)
    (destination : List Point) (dest_orientation : List ℝ) (dimensions : List Point)
    (initial_speed : List ℝ) (name : List String) (a b c : ℝ) :
    (vehicleInit position orientation destination dest_orientation dimensions
      initial_speed name a b c).dimensions = dimensions ∧
    (vehicleInit position orientation destination dest_orientation dimensions
      initial_speed name a b c).position = position ∧
    (vehicleInit position orientation destination dest_orientation dimensions
      initial_speed name a b c).nbatch = position.length ∧
    (vehicleInit position orientation destination dest_orientation dimensions
      initial_speed name a b c).destination = destination ∧
    (vehicleInit position orientation destination dest_orientation dimensions
      initial_speed name a b c).speed = initial_speed ∧
    (vehicleInit position orientation destination dest_orientation dimensions
      initial_speed name a b c).name = name := by
  simp [vehicleInit]

/-- C8 (counterexample): construction with agreeing leading dimensions but
the non-positive dimensions entry (−1, −1) does not fail: it returns a
normal fleet that stores those dimensions and computes world corners. -/
theorem vehicleInit_negative_dims :
    (vehicleInit [((0:ℝ), (0:ℝ))] [0] [(1, 1)] [0] [(-1, -1)] [0] ["car"]
      (5 / 2) 50 50).dimensions = [(-1, -1)] ∧
    (vehicleInit [((0:ℝ), (0:ℝ))] [0] [(1, 1)] [0] [(-1, -1)] [0] ["car"]
      (5 / 2) 50 50).coordinates
      = [[(-(1/2), -(1/2)), (-(1/2), 1/2), (1/2, 1/2), (1/2, -(1/2))]] := by
  constructor
  · simp [vehicleInit]
  · simp only [vehicleInit, transform_2d_coordinates, cornersVeh, baseOf, mul_factor,
      rotate2d, angle_normalize_zero, List.map_cons, List.map_nil, List.zip_cons_cons,
      List.zip_nil_right, Real.cos_zero, Real.sin_zero, Prod.mk_add_mk]
    norm_num

lemma vehicleInit_orientation_normalized (position : List Point) (orientation : List ℝ)
    (destination : List Point) (dest_orientation : List ℝ) (dimensions : List Point)
    (initial_speed : List ℝ) (name : List String) (a b c : ℝ) :
    ∀ θ ∈ (vehicleInit position orientation destination dest_orientation dimensions
      initial_speed name a b c).orientation, θ ∈ Set.Ioc (-Real.pi) Real.pi := by
  intro θ hθ
  simp only [vehicleInit, List.mem_map] at hθ
  obtain ⟨x, _, rfl⟩ := hθ
  exact angle_normalize_mem x

/-- C4 (code bug): `update_state` stores column 3 without normalizing, so
after updating fleetA with orientation 10 the stored orientation value is
10, which lies outside (−π, π]. -/
theorem update_state_orientation_unnormalized :
    (update_state fleetA [[0, 0, 0, 10]]).orientation = [10] ∧
    (10:ℝ) ∉ Set.Ioc (-Real.pi) Real.pi := by
  constructor
  · simp [update_state]
  · intro hmem
    rw [Set.mem_Ioc] at hmem
    have h315 := Real.pi_lt_d2
    linarith [hmem.2]

/-- C1 (code bug): for fleetA, `get_edges` returns p1 as the 1×4×2 corner
array, but p2 comes out as a 1×8×1 array holding the y column followed by
the x column (the source slices axis 2 and concatenates along axis 1), not
the 1×4×2 array of corners rolled by one that the claim describes. -/
theorem get_edges_wrong_axis :
    (get_edges fleetA).1.1 = [[[2, 1], [2, -1], [-2, -1], [-2, 1]]] ∧
    (get_edges fleetA).1.2 = [[[1], [-1], [-1], [1], [2], [2], [-2], [-2]]] ∧
    (get_edges fleetA).1.2 ≠ [[[2, -1], [-2, -1], [-2, 1], [2, 1]]] := by
  refine ⟨?_, ?_, ?_⟩ <;> simp [get_edges, get_coordinatesA]

lemma updateA_move : update_state fleetA [[1, 0, 0, 0]]
    = { fleetA with
        position := [(1, 0)]
        speed := [0]
        orientation := [0]
        cached_coordinates := false } := by
  simp [update_state]

lemma get_coordinatesA_move : get_coordinates (update_state fleetA [[1, 0, 0, 0]])
    = ([[(3, 1), (3, -1), (-1, -1), (-1, 1)]],
      { fleetA with
        position := [(1, 0)]
        speed := [0]
        orientation := [0]
        cached_coordinates := true }) := by
  rw [updateA_move, get_coordinates]
  rw [if_neg (by simp)]
  rw [get_coordinates_inner]
  refine Prod.ext ?_ rfl
  simp only [transform_2d_coordinates, fleetA_base, cornersVeh, rotate2d,
    List.map_cons, List.map_nil, List.zip_cons_cons, List.zip_nil_right,
    Real.cos_zero, Real.sin_zero, Prod.mk_add_mk]
  norm_num

/-- C2 (code bug): immediately after an update that moves the vehicle, the
first `get_coordinates` call returns the fresh corners but does not store
them in the cache, so the second call returns the stale pre-update corners:
the two calls disagree. -/
theorem get_coordinates_not_idempotent :
    (get_coordinates (update_state fleetA [[1, 0, 0, 0]])).1
      = [[(3, 1), (3, -1), (-1, -1), (-1, 1)]] ∧
    (get_coordinates (get_coordinates (update_state fleetA [[1, 0, 0, 0]])).2).1
      = [[(2, 1), (2, -1), (-2, -1), (-2, 1)]] ∧
    (get_coordinates (update_state fleetA [[1, 0, 0, 0]])).1
      ≠ (get_coordinates (get_coordinates (update_state fleetA [[1, 0, 0, 0]])).2).1 := by
  have h1 : (get_coordinates (update_state fleetA [[1, 0, 0, 0]])).1
      = [[(3, 1), (3, -1), (-1, -1), (-1, 1)]] := by
    rw [get_coordinatesA_move]
  have h2 : (get_coordinates (get_coordinates (update_state fleetA [[1, 0, 0, 0]])).2).1
      = [[(2, 1), (2, -1), (-2, -1), (-2, 1)]] := by
    rw [get_coordinatesA_move]
    rw [get_coordinates]
    rw [if_pos (by simp)]
    simpa using coordsA
  refine ⟨h1, h2, ?_⟩
  rw [h1, h2]
  simp only [ne_eq, List.cons.injEq, and_true, Prod.mk.injEq]
  norm_num

/-- C7 (counterexample): updating fleetA with orientation 2π changes the
stored orientation but leaves the position unchanged, and `get_coordinates`
then returns exactly the pre-update cached corners (cos and sin are
2π-periodic), so "differs unless position and orientation are unchanged"
fails as stated. -/
theorem get_coordinates_2pi_same :
    (update_state fleetA [[0, 0, 0, 2 * Real.pi]]).orientation ≠ fleetA.orientation ∧
    (update_state fleetA [[0, 0, 0, 2 * Real.pi]]).position = fleetA.position ∧
    (get_coordinates (update_state fleetA [[0, 0, 0, 2 * Real.pi]])).1
      = fleetA.coordinates := by
  refine ⟨?_, ?_, ?_⟩
  · rw [fleetA_orientation]
    simp only [update_state, List.map_cons, List.map_nil, List.getD_cons_zero,
      List.getD_cons_succ]
    intro hcon
    have h0 : 2 * Real.pi = 0 := by
      simpa using hcon
    have := Real.pi_pos
    linarith
  · rw [fleetA_position]
    simp [update_state]
  · rw [get_coordinates]
    simp only [update_state, List.map_cons, List.map_nil, List.getD_cons_zero,
      List.getD_cons_succ]
    rw [if_neg (by simp)]
    rw [coordsA]
    simp only [get_coordinates_inner, transform_2d_coordinates, fleetA_base, cornersVeh,
      rotate2d, List.map_cons, List.map_nil, List.zip_cons_cons, List.zip_nil_right,
      Real.cos_two_pi, Real.sin_two_pi, Prod.mk_add_mk]
    norm_num

lemma fleetC_position : fleetC.position = [(0, 0), (100, 0)] := by
  simp [fleetC, vehicleInit]

lemma fleetC_nbatch : fleetC.nbatch = 2 := by
  simp [fleetC, vehicleInit]

lemma fleetC_safety : fleetC.safety_circle
    = [(13 / 10) * Real.sqrt 5, (13 / 10) * Real.sqrt 5] := by
  simp only [fleetC, vehicleInit, safetyOf, List.map_cons, List.map_nil]
  norm_num

lemma sqrt5_pos : (0:ℝ) < Real.sqrt 5 := Real.sqrt_pos.mpr (by norm_num)

lemma sqrt5_lt_3 : Real.sqrt 5 < 3 := by
  rw [show (3:ℝ) = Real.sqrt 9 by
    rw [show (9:ℝ) = 3 ^ 2 by norm_num, Real.sqrt_sq (by norm_num : (0:ℝ) ≤ 3)]]
  exact Real.sqrt_lt_sqrt (by norm_num) (by norm_num)

lemma circle_area_overlap_far_zero (c1 c2 : Point) (r1 r2 : ℝ)
    (h : r1 + r2 ≤ Real.sqrt ((c1.1 - c2.1) ^ 2 + (c1.2 - c2.2) ^ 2)) :
    circle_area_overlap c1 c2 r1 r2 = 0 := by
  simp only [circle_area_overlap]
  rw [if_pos h]

lemma circle_area_overlap_contained (c1 c2 : Point) (r1 r2 : ℝ)
    (h1 : Real.sqrt ((c1.1 - c2.1) ^ 2 + (c1.2 - c2.2) ^ 2) < r1 + r2)
    (h2 : Real.sqrt ((c1.1 - c2.1) ^ 2 + (c1.2 - c2.2) ^ 2) ≤ |r1 - r2|) :
    circle_area_overlap c1 c2 r1 r2 = Real.pi * min r1 r2 ^ 2 := by
  simp only [circle_area_overlap]
  rw [if_neg (not_le.mpr h1), if_pos h2]

lemma circle_overlap_same_center :
    circle_area_overlap (100, 0) (100, 0) ((13 / 10) * Real.sqrt 5) ((13 / 10) * Real.sqrt 5)
      = Real.pi * ((13 / 10) * Real.sqrt 5) ^ 2 := by
  have hr : (0:ℝ) < (13 / 10) * Real.sqrt 5 := by positivity
  have hd : Real.sqrt ((((100:ℝ), (0:ℝ)).1 - ((100:ℝ), (0:ℝ)).1) ^ 2
      + (((100:ℝ), (0:ℝ)).2 - ((100:ℝ), (0:ℝ)).2) ^ 2) = 0 := by
    norm_num
  rw [circle_area_overlap_contained _ _ _ _ (by rw [hd]; linarith)
    (by rw [hd]; exact abs_nonneg _)]
  rw [min_self]

lemma circle_overlap_far :
    circle_area_overlap (0, 0) (100, 0) ((13 / 10) * Real.sqrt 5) ((13 / 10) * Real.sqrt 5)
      = 0 := by
  have h3 := sqrt5_lt_3
  have hr := sqrt5_pos
  apply circle_area_overlap_far_zero
  rw [show ((((0:ℝ), (0:ℝ)).1 - ((100:ℝ), (0:ℝ)).1) ^ 2
      + (((0:ℝ), (0:ℝ)).2 - ((100:ℝ), (0:ℝ)).2) ^ 2) = 10000 by norm_num]
  rw [show Real.sqrt 10000 = 100 by
    rw [show (10000:ℝ) = 100 ^ 2 by norm_num, Real.sqrt_sq (by norm_num : (0:ℝ) ≤ 100)]]
  linarith

/-- C5 (code bug): for two identical two-vehicle fleets at (0, 0) and
(100, 0), entry [0, 1] of `safety_circle_overlap` should be the overlap of
the first fleet's circle 0 (at the origin) with the second fleet's circle 1
(at (100, 0)), which is 0 for these far-apart circles; the repeat-based
indexing in the source instead pairs circle 1 with circle 1 (same center),
returning the full disc area π·r² ≠ 0. -/
theorem safety_circle_overlap_misindexed :
    ((safety_circle_overlap fleetC fleetC).getD 0 []).getD 1 0
      = Real.pi * ((13 / 10) * Real.sqrt 5) ^ 2 ∧
    circle_area_overlap (fleetC.position.getD 0 (0, 0)) (fleetC.position.getD 1 (0, 0))
      (fleetC.safety_circle.getD 0 0) (fleetC.safety_circle.getD 1 0) = 0 ∧
    Real.pi * ((13 / 10) * Real.sqrt 5) ^ 2 ≠ 0 := by
  refine ⟨?_, ?_, ?_⟩
  · show circle_area_overlap (100, 0) (100, 0) (safetyOf (4, 2)) (safetyOf (4, 2)) = _
    rw [show safetyOf (4, 2) = (13 / 10) * Real.sqrt 5 by rw [safetyOf]; norm_num]
    exact circle_overlap_same_center
  · show circle_area_overlap (0, 0) (100, 0) (safetyOf (4, 2)) (safetyOf (4, 2)) = 0
    rw [show safetyOf (4, 2) = (13 / 10) * Real.sqrt 5 by rw [safetyOf]; norm_num]
    exact circle_overlap_far
  · have hr := sqrt5_pos
    have hπ := Real.pi_pos
    positivity

lemma fleetB_cached : fleetB.cached_coordinates = true := by
  simp [fleetB, vehicleInit]

lemma fleetB_nbatch : fleetB.nbatch = 2 := by
  simp [fleetB, vehicleInit]

lemma get_coordinatesB : get_coordinates fleetB
    = ([[(2, 1), (2, -1), (-2, -1), (-2, 1)],
        [(22, 1), (22, -1), (18, -1), (18, 1)]], fleetB) := by
  rw [get_coordinates, fleetB_cached]
  simp [coordsB]

lemma get_edgesB : get_edges fleetB
    = (([[[2, 1], [2, -1], [-2, -1], [-2, 1]],
         [[22, 1], [22, -1], [18, -1], [18, 1]]],
        [[[1], [-1], [-1], [1], [2], [2], [-2], [-2]],
         [[1], [-1], [-1], [1], [22], [22], [18], [18]]]), fleetB) := by
  simp [get_edges, get_coordinatesB]

lemma segmentsB1 : chunkPairs ((get_edges fleetB).1.1.flatten.flatten)
    = [(2, 1), (2, -1), (-2, -1), (-2, 1), (22, 1), (22, -1), (18, -1), (18, 1)] := by
  rw [get_edgesB]
  simp [chunkPairs]

lemma segmentsB2 : chunkPairs ((get_edges fleetB).1.2.flatten.flatten)
    = [(1, -1), (-1, 1), (2, 2), (-2, -2), (1, -1), (-1, 1), (22, 22), (18, 18)] := by
  rw [get_edgesB]
  simp [chunkPairs]

lemma cornerB0 (m : ℕ) : vehicle_corner fleetB 0 m
    = [((2:ℝ), (1:ℝ)), (2, -1), (-2, -1), (-2, 1)].getD m (0, 0) := by
  rw [vehicle_corner, get_coordinatesB]
  simp

lemma cornerB1 (m : ℕ) : vehicle_corner fleetB 1 m
    = [((22:ℝ), (1:ℝ)), (22, -1), (18, -1), (18, 1)].getD m (0, 0) := by
  rw [vehicle_corner, get_coordinatesB]
  simp

/-- C3 (code bug): for fleetB (two 4×2 vehicles at (0, 0) and (20, 0), far
apart), no boundary edge of vehicle 0 intersects any edge of vehicle 1, so
by the claim its collision flag must be false; the source's
`collision_check` nevertheless reports a collision, because `get_edges`
supplies mixed-coordinate segments (and the mask only excludes the
diagonal, not whole 4×4 same-vehicle blocks). -/
theorem collision_check_divergence :
    collision_check fleetB 0 ∧ ¬ collision_check_claim fleetB 0 := by
  constructor
  · simp only [collision_check]
    rw [segmentsB1, segmentsB2, fleetB_nbatch]
    refine ⟨1, by norm_num, 4, by norm_num, by norm_num [diag_bool_buffer], ?_⟩
    norm_num [check_intersection_lines, direction]
  · intro hcl
    obtain ⟨b', hb', hne, i, hi, j, hj, hint⟩ := hcl
    rw [fleetB_nbatch] at hb'
    interval_cases b'
    · exact hne rfl
    · simp only [cornerB0, cornerB1] at hint
      interval_cases i <;> interval_cases j <;>
        norm_num [check_intersection_lines, direction] at hint

lemma arccos_ne_pi_div_two : Real.arccos (1 - 1 / 100000) ≠ Real.pi / 2 := by
  intro h
  have hc : Real.cos (Real.arccos (1 - 1 / 100000)) = 1 - 1 / 100000 :=
    Real.cos_arccos (by norm_num) (by norm_num)
  rw [h, Real.cos_pi_div_two] at hc
  norm_num at hc

/-- C6 (code bug): for fleetA (one vehicle at the origin, orientation 0)
and target point (0, 5), the source's `torch.cat` along dimension 0 makes
`optimal_heading_to_point` return a 2×1 column instead of a 1×1 value: its
first entry is arccos(1 − 1e-5) ≈ 0.0045, which is not π/2, and π/2 only
appears as the spurious second entry. -/
theorem optimal_heading_wrong_shape :
    optimal_heading_to_point1 fleetA (0, 5)
      = [Real.arccos (1 - 1 / 100000), Real.pi / 2] ∧
    Real.arccos (1 - 1 / 100000) ≠ Real.pi / 2 := by
  have hπ := Real.pi_pos
  constructor
  · simp only [optimal_heading_to_point1, fleetA_position, fleetA_orientation,
      List.getD_cons_zero, Real.cos_zero, Real.sin_zero, mul_one, mul_zero]
    norm_num
    rw [show Real.sqrt 25 = 5 by
      rw [show (25:ℝ) = 5 ^ 2 by norm_num, Real.sqrt_sq (by norm_num : (0:ℝ) ≤ 5)]]
    constructor
    · rw [show (-(99999 / 100000) : ℝ) ⊔ (99999 / 100000 : ℝ) ⊓ (5 / (5 + 1 / 10000000) : ℝ)
          = (99999 / 100000 : ℝ) by
        rw [min_eq_left (by
            rw [le_div_iff₀ (show (0:ℝ) < 5 + 1 / 10000000 by norm_num)]
            norm_num),
          max_eq_right (by norm_num)]]
      exact angle_normalize_eq_self _
        (by linarith [Real.arccos_nonneg ((99999:ℝ) / 100000)]) (Real.arccos_le_pi _)
    · exact angle_normalize_eq_self _ (by linarith) (by linarith)
  · exact arccos_ne_pi_div_two

lemma transform_getD (base : List (List Point)) (θs : List ℝ) (ps : List Point) (i : ℕ)
    (hi : i < base.length) (h1 : θs.length = base.length) (h2 : ps.length = base.length) :
    (transform_2d_coordinates base θs ps).getD i []
      = cornersVeh (base.getD i []) (θs.getD i 0) (ps.getD i (0, 0)) := by
  have hl : i < ((base.zip (θs.zip ps)).map fun t => cornersVeh t.1 t.2.1 t.2.2).length := by
    rw [List.length_map, List.length_zip, List.length_zip, h1, h2, min_self, min_self]
    exact hi
  rw [transform_2d_coordinates, List.getD_eq_getElem _ _ hl,
    List.getD_eq_getElem _ _ hi, List.getD_eq_getElem _ _ (show i < θs.length by omega),
    List.getD_eq_getElem _ _ (show i < ps.length by omega)]
  simp [List.getElem_zip]

lemma transform_eq_iff (base : List (List Point)) (θ1 θ2 : List ℝ) (p1 p2 : List Point)
    (h1 : θ1.length = base.length) (h2 : p1.length = base.length)
    (h3 : θ2.length = base.length) (h4 : p2.length = base.length) :
    transform_2d_coordinates base θ2 p2 = transform_2d_coordinates base θ1 p1 ↔
      ∀ i, i < base.length →
        cornersVeh (base.getD i []) (θ2.getD i 0) (p2.getD i (0, 0))
          = cornersVeh (base.getD i []) (θ1.getD i 0) (p1.getD i (0, 0)) := by
  have hl2 : (transform_2d_coordinates base θ2 p2).length = base.length := by
    rw [transform_2d_coordinates, List.length_map, List.length_zip, List.length_zip,
      h3, h4, min_self, min_self]
  have hl1 : (transform_2d_coordinates base θ1 p1).length = base.length := by
    rw [transform_2d_coordinates, List.length_map, List.length_zip, List.length_zip,
      h1, h2, min_self, min_self]
  constructor
  · intro heq i hi
    rw [← transform_getD base θ2 p2 i hi h3 h4, ← transform_getD base θ1 p1 i hi h1 h2, heq]
  · intro hpt
    apply List.ext_getElem (by rw [hl2, hl1])
    intro i hi1 hi2
    have hib : i < base.length := by rw [hl2] at hi1; exact hi1
    have e2 := transform_getD base θ2 p2 i hib h3 h4
    have e1 := transform_getD base θ1 p1 i hib h1 h2
    rw [List.getD_eq_getElem _ _ hi1] at e2
    rw [List.getD_eq_getElem _ _ hi2] at e1
    rw [e2, e1]
    exact hpt i hib

lemma cornersVeh_baseOf_inj (d : Point) (_hd1 : 0 < d.1) (hd2 : 0 < d.2)
    (θ' θ : ℝ) (p' p : Point) :
    cornersVeh (baseOf d) θ' p' = cornersVeh (baseOf d) θ p ↔
      p' = p ∧ Real.cos θ' = Real.cos θ ∧ Real.sin θ' = Real.sin θ := by
  constructor
  · intro h
    simp only [cornersVeh, baseOf, mul_factor, List.map_cons, List.map_nil, rotate2d,
      List.cons.injEq, and_true, Prod.ext_iff, Prod.fst_add, Prod.snd_add, one_mul,
      neg_mul, mul_neg, neg_neg] at h
    obtain ⟨⟨e0x, e0y⟩, ⟨e1x, e1y⟩, ⟨e2x, e2y⟩, e3x, e3y⟩ := h
    have hsin : Real.sin θ' * d.2 = Real.sin θ * d.2 := by nlinarith [e0x, e1x]
    have hcos : Real.cos θ' * d.2 = Real.cos θ * d.2 := by nlinarith [e0y, e1y]
    have hs2 : Real.sin θ' = Real.sin θ := mul_right_cancel₀ (ne_of_gt hd2) hsin
    have hc2 : Real.cos θ' = Real.cos θ := mul_right_cancel₀ (ne_of_gt hd2) hcos
    rw [hs2, hc2] at e0x e0y
    exact ⟨Prod.ext (by linarith) (by linarith), hc2, hs2⟩
  · rintro ⟨hp, hc, hs⟩
    simp only [cornersVeh, rotate2d, hp, hc, hs]

/-- C7 (amended): for every fleet built from equal-length inputs with
positive dimensions and every matching state tensor, `get_coordinates`
immediately after `update_state` recomputes: its value is the independent
transformation R(θ)·local + position of the base corners at the new
position and orientation; and it equals the pre-update cached value if and
only if every vehicle's position is unchanged and its orientation is
unchanged modulo 2π (equal cosine and sine). -/
theorem get_coordinates_after_update (pos dest : List Point) (ors dors sps : List ℝ)
    (dims : List Point) (nms : List String) (a b c : ℝ) (s : List (List ℝ))
    (hdim : ∀ d ∈ dims, 0 < d.1 ∧ 0 < d.2)
    (hlo : ors.length = pos.length) (hld : dims.length = pos.length)
    (hls : s.length = pos.length) :
    (get_coordinates (update_state (vehicleInit pos ors dest dors dims sps nms a b c) s)).1
      = transform_2d_coordinates
          (update_state (vehicleInit pos ors dest dors dims sps nms a b c) s).base_coordinates
          (update_state (vehicleInit pos ors dest dors dims sps nms a b c) s).orientation
          (update_state (vehicleInit pos ors dest dors dims sps nms a b c) s).position ∧
    ((get_coordinates (update_state (vehicleInit pos ors dest dors dims sps nms a b c) s)).1
        = (vehicleInit pos ors dest dors dims sps nms a b c).coordinates ↔
      ∀ i, i < pos.length →
        (update_state (vehicleInit pos ors dest dors dims sps nms a b c) s).position.getD i (0, 0)
            = pos.getD i (0, 0) ∧
        Real.cos ((update_state
              (vehicleInit pos ors dest dors dims sps nms a b c) s).orientation.getD i 0)
            = Real.cos ((vehicleInit pos ors dest dors dims sps nms a b c).orientation.getD i 0) ∧
        Real.sin ((update_state
              (vehicleInit pos ors dest dors dims sps nms a b c) s).orientation.getD i 0)
            = Real.sin ((vehicleInit pos ors dest dors dims sps nms a b c).orientation.getD i 0)) := by
  have hb : (update_state (vehicleInit pos ors dest dors dims sps nms a b c) s).base_coordinates
      = dims.map baseOf := by
    simp [update_state, vehicleInit]
  have ho : (update_state (vehicleInit pos ors dest dors dims sps nms a b c) s).orientation
      = (s.map fun r => r.getD 3 0) := by
    simp [update_state]
  have hq : (update_state (vehicleInit pos ors dest dors dims sps nms a b c) s).position
      = (s.map fun r => (r.getD 0 0, r.getD 1 0)) := by
    simp [update_state]
  have horr : (vehicleInit pos ors dest dors dims sps nms a b c).orientation
      = ors.map angle_normalize := by
    simp [vehicleInit]
  have hcoords : (vehicleInit pos ors dest dors dims sps nms a b c).coordinates
      = transform_2d_coordinates (dims.map baseOf) (ors.map angle_normalize) pos := by
    simp [vehicleInit]
  have hgc : (get_coordinates (update_state (vehicleInit pos ors dest dors dims sps nms a b c) s)).1
      = transform_2d_coordinates (dims.map baseOf) (s.map fun r => r.getD 3 0)
          (s.map fun r => (r.getD 0 0, r.getD 1 0)) := by
    rw [get_coordinates, if_neg (by simp [update_state])]
    rw [get_coordinates_inner]
    rw [hb, ho, hq]
  constructor
  · rw [hgc, hb, ho, hq]
  · rw [hgc, hcoords, ho, hq, horr]
    rw [transform_eq_iff (dims.map baseOf) (ors.map angle_normalize)
      (s.map fun r => r.getD 3 0) pos (s.map fun r => (r.getD 0 0, r.getD 1 0))
      (by simp [hlo, hld]) (by simp [hld]) (by simp [hls, hld]) (by simp [hls, hld])]
    rw [List.length_map, hld]
    refine forall_congr' fun i => imp_congr_right fun hi => ?_
    have hid : i < dims.length := by omega
    have hbase : (dims.map baseOf).getD i [] = baseOf (dims.getD i (0, 0)) := by
      rw [List.getD_eq_getElem _ _ (show i < (dims.map baseOf).length by simpa using hid),
        List.getElem_map, List.getD_eq_getElem _ _ hid]
    rw [hbase]
    have hmem : dims.getD i (0, 0) ∈ dims := by
      rw [List.getD_eq_getElem _ _ hid]
      exact List.getElem_mem hid
    obtain ⟨hd1, hd2⟩ := hdim _ hmem
    exact cornersVeh_baseOf_inj (dims.getD i (0, 0)) hd1 hd2 _ _ _ _

/-- C7 amended witness: the single-vehicle fleetA with the state row
[1, 2, 3, 4] satisfies the hypotheses and the conclusion. -/
theorem get_coordinates_after_update_witness :
    (∀ d ∈ [((4:ℝ), (2:ℝ))], 0 < d.1 ∧ 0 < d.2) ∧
    ((get_coordinates (update_state fleetA [[1, 2, 3, 4]])).1
        = transform_2d_coordinates (update_state fleetA [[1, 2, 3, 4]]).base_coordinates
            (update_state fleetA [[1, 2, 3, 4]]).orientation
            (update_state fleetA [[1, 2, 3, 4]]).position ∧
      ((get_coordinates (update_state fleetA [[1, 2, 3, 4]])).1 = fleetA.coordinates ↔
        ∀ i, i < [((0:ℝ), (0:ℝ))].length →
          (update_state fleetA [[1, 2, 3, 4]]).position.getD i (0, 0)
              = [((0:ℝ), (0:ℝ))].getD i (0, 0) ∧
          Real.cos ((update_state fleetA [[1, 2, 3, 4]]).orientation.getD i 0)
              = Real.cos (fleetA.orientation.getD i 0) ∧
          Real.sin ((update_state fleetA [[1, 2, 3, 4]]).orientation.getD i 0)
              = Real.sin (fleetA.orientation.getD i 0))) :=
  ⟨by norm_num,
    get_coordinates_after_update [(0, 0)] [(1, 1)] [0] [0] [0] [(4, 2)] ["car"]
      (5 / 2) 50 50 [[1, 2, 3, 4]] (by norm_num) rfl rfl rfl⟩

end SDriving
